import Mathlib

/-!
Verification development for the cagent agent runtime: the Code-Mode
tool-call adapter (JSDoc projection, script execution bridge, trace
capture), the multi-tenant service manager, and the project prompt-file
composition helper.  Definitions are shallow embeddings of the Go source;
where the body of a Go function is absent from the sources, the definition
is modelled from the specification and marked as such in its doc comment.
-/

namespace Cagent

/-- JSON values, with object fields kept in insertion order, mirroring the
order-preserving rendering of `encoding/json` marshalling of schema
structs in the Go source.  Numbers are modelled as integers, which covers
every JSON document appearing in this repository. -/
inductive Json where
  | null : Json
  | bool (b : Bool) : Json
  | num (n : Int) : Json
  | str (s : String) : Json
  | arr (elems : List Json) : Json
  | obj (fields : List (String × Json)) : Json

/-- The opening brace character, kept as a named constant. -/
def lbrace : Char := Char.ofNat 123

/-- The closing brace character, kept as a named constant. -/
def rbrace : Char := Char.ofNat 125

/-- Escape one character as inside a Go `encoding/json` string literal
(the characters appearing in this development need no `\u` forms). -/
def escapeChar (c : Char) : String :=
  if c = Char.ofNat 34 then "\\\""
  else if c = Char.ofNat 92 then "\\\\"
  else if c = Char.ofNat 10 then "\\n"
  else if c = Char.ofNat 9 then "\\t"
  else String.singleton c

/-- Render a JSON string literal with surrounding quotes, as
`encoding/json` does. -/
def quoteJsonString (s : String) : String :=
  "\"" ++ String.join (s.toList.map escapeChar) ++ "\""

/-- Render a JSON number as `encoding/json` renders integers. -/
def renderNum (n : Int) : String :=
  if n < 0 then "-" ++ Nat.repr n.natAbs else Nat.repr n.toNat

/-- Two-space indentation repeated `level` times, the indent unit of
`json.MarshalIndent(v, "", "  ")` in the Go source. -/
def indentUnit (level : Nat) : String :=
  String.join (List.replicate level "  ")

mutual

/-- `json.MarshalIndent(v, "", "  ")` at a given nesting level. -/
def marshalIndent : Json → Nat → String
  | .null, _ => "null"
  | .bool b, _ => if b then "true" else "false"
  | .num n, _ => renderNum n
  | .str s, _ => quoteJsonString s
  | .arr [], _ => "[]"
  | .arr (e :: es), level =>
      "[\n" ++ marshalIndentElems (e :: es) (level + 1) ++ "\n"
        ++ indentUnit level ++ "]"
  | .obj [], _ => String.singleton lbrace ++ String.singleton rbrace
  | .obj (f :: fs), level =>
      String.singleton lbrace ++ "\n"
        ++ marshalIndentFields (f :: fs) (level + 1) ++ "\n"
        ++ indentUnit level ++ String.singleton rbrace

/-- Array elements of `marshalIndent`, comma/newline separated. -/
def marshalIndentElems : List Json → Nat → String
  | [], _ => ""
  | [e], level => indentUnit level ++ marshalIndent e level
  | e :: e' :: es, level =>
      indentUnit level ++ marshalIndent e level ++ ",\n"
        ++ marshalIndentElems (e' :: es) level

/-- Object fields of `marshalIndent`, comma/newline separated. -/
def marshalIndentFields : List (String × Json) → Nat → String
  | [], _ => ""
  | [(k, v)], level => indentUnit level ++ quoteJsonString k ++ ": " ++ marshalIndent v level
  | (k, v) :: f :: fs, level =>
      indentUnit level ++ quoteJsonString k ++ ": " ++ marshalIndent v level ++ ",\n"
        ++ marshalIndentFields (f :: fs) level

end

mutual

/-- Compact `json.Marshal` rendering. -/
def marshal : Json → String
  | .null => "null"
  | .bool b => if b then "true" else "false"
  | .num n => renderNum n
  | .str s => quoteJsonString s
  | .arr es => "[" ++ marshalElems es ++ "]"
  | .obj fs => String.singleton lbrace ++ marshalFields fs ++ String.singleton rbrace

/-- Array elements of compact `marshal`, comma separated. -/
def marshalElems : List Json → String
  | [] => ""
  | [e] => marshal e
  | e :: e' :: es => marshal e ++ "," ++ marshalElems (e' :: es)

/-- Object fields of compact `marshal`, comma separated. -/
def marshalFields : List (String × Json) → String
  | [] => ""
  | [(k, v)] => quoteJsonString k ++ ":" ++ marshal v
  | (k, v) :: f :: fs => quoteJsonString k ++ ":" ++ marshal v ++ "," ++ marshalFields (f :: fs)

end

/-- Split a character list at newline characters. -/
def splitLinesAux : List Char → List Char → List String
  | [], acc => [String.mk acc.reverse]
  | c :: cs, acc =>
      if c = Char.ofNat 10 then String.mk acc.reverse :: splitLinesAux cs []
      else splitLinesAux cs (c :: acc)

/-- Split a string into its lines, the model of ranging over
`strings.Split(s, "\n")` in Go. -/
def splitLines (s : String) : List String :=
  splitLinesAux s.toList []

/-- `strings.TrimSpace` on the simple whitespace set used here. -/
def trimSpace (s : String) : String :=
  String.mk (((s.toList.dropWhile Char.isWhitespace).reverse.dropWhile Char.isWhitespace).reverse)

/-- A tool call result `{output, error}` as in `pkg/tools`: `output` is the
raw string produced by the tool, `error` a well-formed tool-level failure. -/
structure ToolCallResult where
  output : String
  error : Option String
deriving DecidableEq, Repr

/-- A tool descriptor as in `pkg/tools`: name, category, description, the
parameters schema, the output schema, and the optional code-mode output
schema.  The handler takes the decoded JSON arguments and returns either a
transport-level failure (the Go non-nil `error`) or a `ToolCallResult`. -/
structure Tool where
  name : String
  category : String := ""
  description : String := ""
  parameters : Json := Json.obj []
  outputSchema : Json := Json.null
  codeModeOutputSchema : Option Json := none
  handler : Json → Except String ToolCallResult := fun _ => .ok ⟨"", none⟩

/-- Render a JSON schema inside a JSDoc block: every line of the indented
marshalling prefixed by a star gutter. -/
def jsDocSchema (j : Json) : String :=
  String.intercalate "\n" ((splitLines (marshalIndent j 0)).map (fun l => " * " ++ l))

/-- Modelled from the spec: the body of `toolToJsDoc` in
`pkg/tools/codemode` is absent from the sources (only its tests are
present).  Reconstructed from §4.2 "JSDoc projection" and the byte-exact
expected output in `TestToolToJsDoc`: a leading newline, the JSDoc block
with each description line trimmed and prefixed by the star gutter, the
parameters schema, then the output schema — preferring
`code-mode-output-schema` when non-null — and the function stub line
followed by a newline. -/
def toolToJsDoc (t : Tool) : String :=
  "\n/**\n"
    ++ String.intercalate "\n" ((splitLines t.description).map (fun l => " * " ++ trimSpace l)) ++ "\n"
    ++ " * \n"
    ++ " * @param args - Input object containing the parameters.\n"
    ++ " * @returns Output - The result of the function execution.\n"
    ++ " *\n"
    ++ " * Where Input follows the following JSON schema:\n"
    ++ jsDocSchema t.parameters ++ "\n"
    ++ " *\n"
    ++ " * And Output follows the following JSON schema:\n"
    ++ jsDocSchema (t.codeModeOutputSchema.getD t.outputSchema) ++ "\n"
    ++ " */\n"
    ++ "function " ++ t.name ++ "(args: Input): Output " ++ String.singleton lbrace
    ++ " ... " ++ String.singleton rbrace ++ "\n"

/-- Drop leading JSON whitespace. -/
def skipWs (cs : List Char) : List Char := cs.dropWhile Char.isWhitespace

/-- Decimal digits to a natural number. -/
def digitsToNat (ds : List Char) : Nat := ds.foldl (fun n c => 10 * n + (c.toNat - 48)) 0

/-- Parse the remainder of a JSON string literal, the opening quote already
consumed; handles the simple escapes used in this development. -/
def parseStringAux : List Char → List Char → Option (String × List Char)
  | [], _ => none
  | c :: cs, acc =>
    if c = Char.ofNat 34 then some (String.mk acc.reverse, cs)
    else if c = Char.ofNat 92 then
      match cs with
      | [] => none
      | e :: cs' =>
        if e = Char.ofNat 34 then parseStringAux cs' (Char.ofNat 34 :: acc)
        else if e = Char.ofNat 92 then parseStringAux cs' (Char.ofNat 92 :: acc)
        else if e = 'n' then parseStringAux cs' (Char.ofNat 10 :: acc)
        else if e = 't' then parseStringAux cs' (Char.ofNat 9 :: acc)
        else if e = Char.ofNat 47 then parseStringAux cs' (Char.ofNat 47 :: acc)
        else none
    else parseStringAux cs (c :: acc)

/-- Parse an unsigned JSON integer from the head of the input; fractional
or exponent forms are outside this model. -/
def parseNumFrom (cs : List Char) : Option (Int × List Char) :=
  match cs.takeWhile Char.isDigit with
  | [] => none
  | _ :: _ =>
    let r := cs.dropWhile Char.isDigit
    match r with
    | c :: _ => if c = '.' ∨ c = 'e' ∨ c = 'E' then none
        else some ((digitsToNat (cs.takeWhile Char.isDigit) : Int), r)
    | [] => some ((digitsToNat (cs.takeWhile Char.isDigit) : Int), [])

mutual

/-- Fuel-indexed recursive-descent JSON value parser, the model of
`JSON.parse` / `json.Unmarshal` as used by the Code-Mode bridge. -/
def parseJson : Nat → List Char → Option (Json × List Char)
  | 0, _ => none
  | fuel+1, cs =>
    match skipWs cs with
    | [] => none
    | c :: rest =>
      if c = Char.ofNat 34 then (parseStringAux rest []).map (fun p => (Json.str p.1, p.2))
      else if c = '-' then (parseNumFrom rest).map (fun p => (Json.num (-p.1), p.2))
      else if c.isDigit then (parseNumFrom (c :: rest)).map (fun p => (Json.num p.1, p.2))
      else if c = '[' then
        match skipWs rest with
        | c₂ :: r₂ =>
          if c₂ = ']' then some (Json.arr [], r₂)
          else
            match parseJson fuel (c₂ :: r₂) with
            | some (v, r₃) => (parseArrMore fuel r₃).map (fun p => (Json.arr (v :: p.1), p.2))
            | none => none
        | [] => none
      else if c = lbrace then
        match skipWs rest with
        | c₂ :: r₂ =>
          if c₂ = rbrace then some (Json.obj [], r₂)
          else
            match parseField fuel (c₂ :: r₂) with
            | some (kv, r₃) => (parseObjMore fuel r₃).map (fun p => (Json.obj (kv :: p.1), p.2))
            | none => none
        | [] => none
      else if c = 'n' then
        match rest with | 'u' :: 'l' :: 'l' :: r => some (Json.null, r) | _ => none
      else if c = 't' then
        match rest with | 'r' :: 'u' :: 'e' :: r => some (Json.bool true, r) | _ => none
      else if c = 'f' then
        match rest with | 'a' :: 'l' :: 's' :: 'e' :: r => some (Json.bool false, r) | _ => none
      else none

/-- Elements of a JSON array after the first one: a comma and a value, or
the closing bracket. -/
def parseArrMore : Nat → List Char → Option (List Json × List Char)
  | 0, _ => none
  | fuel+1, cs =>
    match skipWs cs with
    | c :: rest =>
      if c = ']' then some ([], rest)
      else if c = ',' then
        match parseJson fuel rest with
        | some (v, r) => (parseArrMore fuel r).map (fun p => (v :: p.1, p.2))
        | none => none
      else none
    | [] => none

/-- One `"key": value` field of a JSON object. -/
def parseField : Nat → List Char → Option ((String × Json) × List Char)
  | 0, _ => none
  | fuel+1, cs =>
    match skipWs cs with
    | c :: rest =>
      if c = Char.ofNat 34 then
        match parseStringAux rest [] with
        | some (k, r) =>
          match skipWs r with
          | c₂ :: r₂ =>
            if c₂ = ':' then
              match parseJson fuel r₂ with
              | some (v, r₃) => some ((k, v), r₃)
              | none => none
            else none
          | [] => none
        | none => none
      else none
    | [] => none

/-- Fields of a JSON object after the first one: a comma and a field, or
the closing brace. -/
def parseObjMore : Nat → List Char → Option (List (String × Json) × List Char)
  | 0, _ => none
  | fuel+1, cs =>
    match skipWs cs with
    | c :: rest =>
      if c = rbrace then some ([], rest)
      else if c = ',' then
        match parseField fuel rest with
        | some (kv, r) => (parseObjMore fuel r).map (fun p => (kv :: p.1, p.2))
        | none => none
      else none
    | [] => none

end

/-- `JSON.parse` on a whole document: the parsed value, provided only
whitespace remains. -/
def jsonParse (s : String) : Option Json :=
  match parseJson (2 * s.length + 2) s.toList with
  | some (v, rest) => if skipWs rest = [] then some v else none
  | none => none

/-- One entry of the Code-Mode per-execution trace, as in `ScriptResult`:
the tool name, the decoded arguments, and — filled in after the call — the
raw result string or the error text (empty strings standing for the Go
`omitempty` fields). -/
structure ToolTrace where
  name : String
  arguments : Json
  result : String := ""
  error : String := ""

/-- The `ScriptResult` returned by `run_tools_with_javascript`: the
serialized script value, console output, and the trace of tool calls that
is populated only when the script failed. -/
structure ScriptResult where
  value : String
  stdout : String := ""
  stderr : String := ""
  toolCalls : List ToolTrace := []

/-- Look up a tool by name in the inner tool set, the model of the global
JS function bindings installed by the adapter. -/
def findTool (ts : List Tool) (nm : String) : Option Tool :=
  ts.find? (fun t => t.name == nm)

/-- Outcome of one host/guest bridge call: the updated trace and either
the JS value observed by the script or a JS exception message. -/
structure BridgeOutcome where
  trace : List ToolTrace
  result : Except String Json

/-- Modelled from the spec: the Code-Mode adapter's host/guest bridge
(absent from the sources, only its tests are present), following §4.2
"Argument marshaling" steps 1–4.  The trace entry records the tool name
and decoded arguments; on a handler (transport-level) error the script
fails with the error text and the entry keeps an empty result; otherwise
the entry records the raw output and any tool-level error, and the value
returned to JS is the JSON-parsed output when the tool declares a
`code-mode-output-schema`, else the raw string. -/
def bridgeCall (t : Tool) (args : Json) (trace : List ToolTrace) : BridgeOutcome :=
  match t.handler args with
  | .error e => ⟨trace ++ [⟨t.name, args, "", e⟩], .error e⟩
  | .ok r =>
      let entry : ToolTrace := ⟨t.name, args, r.output, r.error.getD ""⟩
      let observed : Json :=
        if t.codeModeOutputSchema.isSome then
          match jsonParse r.output with
          | some v => v
          | none => Json.str r.output
        else Json.str r.output
      ⟨trace ++ [entry], .ok observed⟩

/-- Shallow embedding of the model-authored scripts exercised by the
tests: invoke a tool and discard the value, return a tool call's value,
return a constant, or throw. -/
inductive Stmt where
  | callTool (name : String) (args : Json)
  | retTool (name : String) (args : Json)
  | retConst (v : Json)
  | throwJs (msg : String)

/-- Modelled from the spec: execution of a script statement list against
the bridge, threading the per-execution trace; a tool name that is not
bound fails like a JS call to an undefined function, a `throw` fails with
the error message, and a `return` ends the script successfully. -/
def runStmts (ts : List Tool) : List Stmt → List ToolTrace → List ToolTrace × Except String (Option Json)
  | [], trace => (trace, .ok none)
  | .callTool nm args :: rest, trace =>
      match findTool ts nm with
      | none => (trace, .error (nm ++ " is not a function"))
      | some t =>
          let o := bridgeCall t args trace
          match o.result with
          | .error e => (o.trace, .error e)
          | .ok _ => runStmts ts rest o.trace
  | .retTool nm args :: _, trace =>
      match findTool ts nm with
      | none => (trace, .error (nm ++ " is not a function"))
      | some t =>
          let o := bridgeCall t args trace
          match o.result with
          | .error e => (o.trace, .error e)
          | .ok v => (o.trace, .ok (some v))
  | .retConst v :: _, trace => (trace, .ok (some v))
  | .throwJs msg :: _, trace => (trace, .error ("Error: " ++ msg))

/-- Serialization of the script's final value into `ScriptResult.value`
per §4.2: objects and arrays as JSON, primitives in their JS string form,
a script without a return value as "undefined". -/
def jsSerialize : Option Json → String
  | none => "undefined"
  | some (Json.str s) => s
  | some (Json.num n) => renderNum n
  | some (Json.bool b) => if b then "true" else "false"
  | some Json.null => "null"
  | some v => marshal v

/-- Whether a script execution runs to completion successfully. -/
def scriptSucceeds (ts : List Tool) (script : List Stmt) : Bool :=
  match (runStmts ts script []).2 with
  | .ok _ => true
  | .error _ => false

/-- Modelled from the spec: "Script completion" in §4.2 — on success the
serialized value with an empty trace, on failure the error message as the
value together with the full trace captured up to the failure. -/
def execScript (ts : List Tool) (script : List Stmt) : ScriptResult :=
  match runStmts ts script [] with
  | (_, .ok v) => { value := jsSerialize v }
  | (trace, .error msg) => { value := msg, toolCalls := trace }

/-- The name/argument pairs of the tool invocations a script attempts
before it stops, computed independently of the trace buffer: an invocation
counts as attempted as soon as the bridge is entered, including the one
whose handler fails. -/
def attemptedCalls (ts : List Tool) : List Stmt → List (String × Json)
  | [] => []
  | .callTool nm args :: rest =>
      match findTool ts nm with
      | none => []
      | some t =>
          match t.handler args with
          | .error _ => [(nm, args)]
          | .ok _ => (nm, args) :: attemptedCalls ts rest
  | .retTool nm args :: _ =>
      match findTool ts nm with
      | none => []
      | some _ => [(nm, args)]
  | .retConst _ :: _ => []
  | .throwJs _ :: _ => []

/-- JSON rendering of one trace entry, with the Go `omitempty` fields
dropped when empty. -/
def toolTraceToJson (tr : ToolTrace) : Json :=
  Json.obj ([("name", Json.str tr.name), ("arguments", tr.arguments)]
    ++ (if tr.result = "" then [] else [("result", Json.str tr.result)])
    ++ (if tr.error = "" then [] else [("error", Json.str tr.error)]))

/-- JSON rendering of a `ScriptResult`, `tool_calls` present only when
the trace is non-empty. -/
def scriptResultToJson (r : ScriptResult) : Json :=
  Json.obj ([("value", Json.str r.value), ("stdout", Json.str r.stdout),
    ("stderr", Json.str r.stderr)]
    ++ (if r.toolCalls.isEmpty then []
        else [("tool_calls", Json.arr (r.toolCalls.map toolTraceToJson))]))

/-- Modelled from the spec: the outer `run_tools_with_javascript` handler
packages the `ScriptResult` as its JSON output and always returns success
at the transport layer (§7 error kind 5), for any script outcome. -/
def runToolsWithJavascript (ts : List Tool) (script : List Stmt) : Except String ToolCallResult :=
  .ok { output := marshal (scriptResultToJson (execScript ts script)), error := none }

/-- The parameters schema of `run_tools_with_javascript`: an object
requiring exactly the `script` string, no additional properties. -/
def scriptParamsSchema : Json :=
  Json.obj [("type", Json.str "object"),
    ("required", Json.arr [Json.str "script"]),
    ("properties", Json.obj [("script", Json.obj [("type", Json.str "string"),
      ("description", Json.str "Script to execute")])]),
    ("additionalProperties", Json.bool false)]

/-- The output schema of `run_tools_with_javascript`: an object requiring
`value`, `stdout`, `stderr`, with the optional `tool_calls` trace array. -/
def scriptResultSchema : Json :=
  Json.obj [("type", Json.str "object"),
    ("required", Json.arr [Json.str "value", Json.str "stdout", Json.str "stderr"]),
    ("properties", Json.obj [
      ("value", Json.obj [("type", Json.str "string"),
        ("description", Json.str "The value returned by the script")]),
      ("stdout", Json.obj [("type", Json.str "string"),
        ("description", Json.str "The standard output of the console")]),
      ("stderr", Json.obj [("type", Json.str "string"),
        ("description", Json.str "The standard error of the console")]),
      ("tool_calls", Json.obj [("type", Json.str "array"),
        ("description", Json.str "The list of tool calls made during script execution, only included on failure"),
        ("items", Json.obj [("type", Json.str "object"),
          ("additionalProperties", Json.bool false),
          ("required", Json.arr [Json.str "name", Json.str "arguments"]),
          ("properties", Json.obj [
            ("name", Json.obj [("type", Json.str "string"),
              ("description", Json.str "The name of the tool that was called")]),
            ("arguments", Json.obj [
              ("description", Json.str "The arguments passed to the tool")]),
            ("result", Json.obj [("type", Json.str "string"),
              ("description", Json.str "The raw response returned by the tool")]),
            ("error", Json.obj [("type", Json.str "string"),
              ("description", Json.str "The error message, if the tool call failed")])])])])]),
    ("additionalProperties", Json.bool false)]

/-- Modelled from the spec: the single outer tool descriptor exposed by
the Code-Mode adapter (the `codeModeTool` implementation is absent from
the sources).  The executable script semantics lives separately in
`runToolsWithJavascript`, since the descriptor-level handler receives the
script as text. -/
def codeModeToolDesc : Tool :=
  { name := "run_tools_with_javascript",
    category := "code mode",
    parameters := scriptParamsSchema,
    outputSchema := scriptResultSchema }

/-- Modelled from the spec: `Tools()` of the Code-Mode adapter returns the
single `run_tools_with_javascript` descriptor for every inner tool set. -/
def adapterTools (_inner : List Tool) : List Tool :=
  [codeModeToolDesc]

/-- Look up a key in a JSON object. -/
def objGet (j : Json) (k : String) : Option Json :=
  match j with
  | .obj fs => (fs.find? (fun f => f.1 == k)).map (fun f => f.2)
  | _ => none

/-- Modelled from the spec: a ToolSet over an external-state type `σ`
(§4.1) — a lazy tool enumerator with `Start`/`Stop` lifecycle, carrying
the contract that `Start`/`Stop` are idempotent on the external state. -/
structure ToolSetModel (σ : Type) where
  tools : σ → List Tool
  start : σ → σ
  stop : σ → σ
  start_idem : ∀ s, start (start s) = start s
  stop_idem : ∀ s, stop (stop s) = stop s

/-- Modelled from the spec: the Code-Mode adapter as a ToolSet wrapper —
`Tools` projects to the single outer tool, `Start`/`Stop` delegate to the
inner tool set (§4.2 "Lifecycle"). -/
def wrapToolSet {σ : Type} (inner : ToolSetModel σ) : ToolSetModel σ :=
  { tools := fun s => adapterTools (inner.tools s),
    start := inner.start,
    stop := inner.stop,
    start_idem := inner.start_idem,
    stop_idem := inner.stop_idem }

/-- A session as held by the service manager: the agent-spec reference it
was created from and its message history. -/
structure MSession where
  specRef : String
  history : List String := []

/-- A client entry: the sessions owned by that client, keyed by session
id. -/
structure MClient where
  sessions : List (Nat × MSession)

/-- Modelled from the spec: the multi-tenant service manager state of
§4.4 (`pkg/servicecore` is absent from the sources) — the client table, a
counter generating globally unique session ids, and the per-client
session cap. -/
structure Manager where
  clients : List (String × MClient)
  nextId : Nat
  cap : Nat

/-- Error kinds surfaced by the service manager (§7). -/
inductive MErr where
  | notFound : MErr
  | alreadyExists : MErr
  | capExceeded : MErr
deriving DecidableEq

/-- Look up a client entry by id. -/
def lookupClient (m : Manager) (cid : String) : Option MClient :=
  (m.clients.find? (fun e => e.1 == cid)).map (fun e => e.2)

/-- Replace the entry of client `cid` (the first occurrence) by `newV`. -/
def updateClient : List (String × MClient) → String → MClient → List (String × MClient)
  | [], _, _ => []
  | (k, v) :: rest, cid, newV =>
      if k == cid then (k, newV) :: rest else (k, v) :: updateClient rest cid newV

/-- Modelled from the spec: `CreateClient(id)` — fails if the id exists. -/
def createClient (m : Manager) (cid : String) : Except MErr Manager :=
  if (lookupClient m cid).isSome then .error .alreadyExists
  else .ok { m with clients := m.clients ++ [(cid, ⟨[]⟩)] }

/-- Modelled from the spec: `CreateSession(client-id, agent-spec)` —
not-found for an unknown client, enforces the per-client cap, and returns
a fresh globally unique session id. -/
def createSession (m : Manager) (cid : String) (spec : String) : Except MErr (Nat × Manager) :=
  match lookupClient m cid with
  | none => .error .notFound
  | some cl =>
      if m.cap ≤ cl.sessions.length then .error .capExceeded
      else .ok (m.nextId,
        { m with
          clients := updateClient m.clients cid ⟨cl.sessions ++ [(m.nextId, ⟨spec, []⟩)]⟩,
          nextId := m.nextId + 1 })

/-- Modelled from the spec: `GetSessionInfo(client-id, session-id)` —
not-found unless the session belongs to that client. -/
def getSessionInfo (m : Manager) (cid : String) (sid : Nat) : Except MErr MSession :=
  match lookupClient m cid with
  | none => .error .notFound
  | some cl =>
      match (cl.sessions.find? (fun e => e.1 == sid)).map (fun e => e.2) with
      | none => .error .notFound
      | some s => .ok s

/-- Modelled from the spec: `GetSessionHistory(client-id, session-id,
limit)` — the session's messages up to `limit`, not-found unless the
session belongs to that client. -/
def getSessionHistory (m : Manager) (cid : String) (sid : Nat) (limit : Nat) : Except MErr (List String) :=
  match getSessionInfo m cid sid with
  | .error e => .error e
  | .ok s => .ok (s.history.take limit)

/-- Modelled from the spec: `CloseSession(client-id, session-id)` —
removes the session, not-found unless it belongs to that client. -/
def closeSession (m : Manager) (cid : String) (sid : Nat) : Except MErr Manager :=
  match lookupClient m cid with
  | none => .error .notFound
  | some cl =>
      if ((cl.sessions.find? (fun e => e.1 == sid)).isSome : Bool) then
        .ok { m with clients := updateClient m.clients cid ⟨cl.sessions.filter (fun e => ! (e.1 == sid))⟩ }
      else .error .notFound

/-- Modelled from the spec: `RemoveClient(id)` — tears down the client
and all its sessions, fails if the id is unknown. -/
def removeClient (m : Manager) (cid : String) : Except MErr Manager :=
  if (lookupClient m cid).isSome then
    .ok { m with clients := m.clients.filter (fun e => ! (e.1 == cid)) }
  else .error .notFound

/-- Manager states reachable from an empty manager through the public
operations. -/
inductive Reachable : Manager → Prop where
  | init (cap : Nat) : Reachable ⟨[], 0, cap⟩
  | stepCreateClient (m m' : Manager) (cid : String) :
      Reachable m → createClient m cid = .ok m' → Reachable m'
  | stepCreateSession (m m' : Manager) (cid spec : String) (sid : Nat) :
      Reachable m → createSession m cid spec = .ok (sid, m') → Reachable m'
  | stepCloseSession (m m' : Manager) (cid : String) (sid : Nat) :
      Reachable m → closeSession m cid sid = .ok m' → Reachable m'
  | stepRemoveClient (m m' : Manager) (cid : String) :
      Reachable m → removeClient m cid = .ok m' → Reachable m'

/-- Client `cid` owns session `sid` in manager state `m`. -/
def ownsSession (m : Manager) (cid : String) (sid : Nat) : Prop :=
  ∃ cl, lookupClient m cid = some cl ∧ (cl.sessions.find? (fun e => e.1 == sid)).isSome = true

/-- Every stored session id is below the id counter. -/
def sessionIdsBounded (m : Manager) : Prop :=
  ∀ cid cl, lookupClient m cid = some cl →
    ∀ e, e ∈ cl.sessions → e.1 < m.nextId

/-- Sessions of distinct clients have disjoint id sets. -/
def clientsIsolated (m : Manager) : Prop :=
  ∀ a b cla clb, a ≠ b → lookupClient m a = some cla → lookupClient m b = some clb →
    ∀ ea eb, ea ∈ cla.sessions → eb ∈ clb.sessions → ea.1 ≠ eb.1

/-- The filesystem as seen by `AddPromptFileContent`: a read either
returns the file content, or fails with not-exist, or fails otherwise. -/
inductive FsErr where
  | notExist : FsErr
  | other (msg : String) : FsErr

/-- A filesystem: the outcome of `os.ReadFile` per path. -/
def FS : Type := String → Except FsErr String

/-- `readPromptFile` from `pkg/session`: reads a single prompt file,
returning its content, or the error from the read. -/
def readPromptFile (fs : FS) (filePath : String) : Except FsErr String :=
  fs filePath

/-- One leg of `AddPromptFileContent`: the content of the prompt file at
`filePath`, an empty string when the file does not exist, and a failure
only for errors other than not-exist. -/
def promptRead (fs : FS) (filePath : String) : Except String String :=
  match readPromptFile fs filePath with
  | .ok c => .ok c
  | .error .notExist => .ok ""
  | .error (.other e) => .error e

/-- The header prepended by `AddPromptFileContent` when any content was
found. -/
def projectContextHeader : String :=
  "\n\n# Project-Specific Context\n Make sure to follow the instructions in the context below\n"

/-- `AddPromptFileContent` from `pkg/session` (source present in the
repository): reads the prompt file from the home directory and the
working directory, skips missing or empty files, and when any content
remains returns the project-context header followed by the contents
joined with a newline, home first.  `homeDir` stands for a successful
`os.UserHomeDir`; path joining is modelled with a slash. -/
def addPromptFileContent (fs : FS) (homeDir workingDir promptFile : String) : Except String String :=
  if promptFile = "" then .ok ""
  else
    match promptRead fs (homeDir ++ "/" ++ promptFile) with
    | .error e => .error ("failed to read prompt file from home directory: " ++ e)
    | .ok homeContent =>
      match promptRead fs (workingDir ++ "/" ++ promptFile) with
      | .error e => .error ("failed to read prompt file from working directory: " ++ e)
      | .ok workContent =>
        let contents := (if homeContent = "" then [] else [homeContent])
          ++ (if workContent = "" then [] else [workContent])
        if contents = [] then .ok ""
        else .ok (projectContextHeader ++ String.intercalate "\n" contents)

/-- The input schema of the `create_todo` tool of scenario S1. -/
def s1InputSchema : Json :=
  Json.obj [("type", Json.str "object"),
    ("required", Json.arr [Json.str "description"]),
    ("properties", Json.obj [("description", Json.obj [("type", Json.str "string"),
      ("description", Json.str "Description of the todo item")])]),
    ("additionalProperties", Json.bool false)]

/-- The `create_todo` tool of scenario S1: two-line description, the S1
input schema, a string output schema, and no code-mode schema. -/
def s1Tool : Tool :=
  { name := "create_todo",
    description := "Create new todo\n each of them with a description",
    parameters := s1InputSchema,
    outputSchema := Json.obj [("type", Json.str "string")] }

/-- The byte-exact prelude required of `toolToJsDoc` for the S1 tool by
the repository's own test: the S1 block of the specification preceded by a
newline and followed by a trailing newline. -/
def s1Expected : String :=
  "\n/**\n * Create new todo\n * each of them with a description\n * \n * @param args - Input object containing the parameters.\n * @returns Output - The result of the function execution.\n *\n * Where Input follows the following JSON schema:\n * \x7b\n *   \"type\": \"object\",\n *   \"required\": [\n *     \"description\"\n *   ],\n *   \"properties\": \x7b\n *     \"description\": \x7b\n *       \"type\": \"string\",\n *       \"description\": \"Description of the todo item\"\n *     \x7d\n *   \x7d,\n *   \"additionalProperties\": false\n * \x7d\n *\n * And Output follows the following JSON schema:\n * \x7b\n *   \"type\": \"string\"\n * \x7d\n */\nfunction create_todo(args: Input): Output \x7b ... \x7d\n"

/-- The `first_tool` of scenario S3. -/
def firstTool : Tool :=
  { name := "first_tool", handler := fun _ => .ok ⟨"first result", none⟩ }

/-- The `second_tool` of scenario S3. -/
def secondTool : Tool :=
  { name := "second_tool", handler := fun _ => .ok ⟨"second result", none⟩ }

/-- The S3 script: two successful tool calls followed by a thrown
runtime error. -/
def s3Script : List Stmt :=
  [.callTool "first_tool" Json.null, .callTool "second_tool" Json.null,
   .throwJs "runtime error"]

/-- A tool with a code-mode output schema whose handler produces the JSON
document `[1,2]`. -/
def structuredTool : Tool :=
  { name := "list_todos",
    codeModeOutputSchema := some (Json.obj [("type", Json.str "array")]),
    handler := fun _ => .ok ⟨"[1,2]", none⟩ }

/-- A tool without a code-mode output schema returning the plain string
`data`, as in scenario S2. -/
def rawTool : Tool :=
  { name := "get_data", handler := fun _ => .ok ⟨"data", none⟩ }

/-- A tool whose handler returns a transport-level (non-nil Go) error
with the given text, as `failing_tool` of scenario S4. -/
def mkFailingTool (nm e : String) : Tool :=
  { name := nm, handler := fun _ => .error e }

/-- The `tool_with_args` of scenario S5, whose handler returns the string
`result`. -/
def s5Tool : Tool :=
  { name := "tool_with_args", handler := fun _ => .ok ⟨"result", none⟩ }

/-- The decoded S5 arguments object. -/
def s5Args : Json := Json.obj [("value", Json.str "test123")]

/-- The S5 script: one tool invocation followed by a thrown error. -/
def s5Script : List Stmt :=
  [.callTool "tool_with_args" s5Args, .throwJs "forced error"]

/-- The manager state of scenario S6: clients `A` and `B`, one session
created under `A`. -/
def s6Manager : Manager :=
  ⟨[("A", ⟨[(0, ⟨"spec", []⟩)]⟩), ("B", ⟨[]⟩)], 1, 10⟩

/-- A filesystem whose home prompt file exists but is empty while the
working-directory prompt file holds `W`. -/
def fsHomeEmpty : FS := fun p =>
  if p = "/h/p.md" then .ok ""
  else if p = "/w/p.md" then .ok "W"
  else .error .notExist

/-- A filesystem whose home prompt file holds `H` and whose
working-directory prompt file holds `W`. -/
def fsBoth : FS := fun p =>
  if p = "/h/p.md" then .ok "H"
  else if p = "/w/p.md" then .ok "W"
  else .error .notExist

set_option maxRecDepth 100000

/-- Claim C2 (amended): for the S1 `create_todo` tool, `toolToJsDoc`
renders exactly the S1 prelude preceded by a leading newline and followed
by a trailing newline, with each description line prefixed by the star
gutter, the parameters schema indented one space per line, and the
terminating function stub line. -/
theorem jsdoc_projection_exact : toolToJsDoc s1Tool = s1Expected := rfl

/-- Claim C2 (counterexample to the claim as stated): the rendered JSDoc
for the S1 tool does not begin with the line starting in `/**` — its
first character is a newline. -/
theorem jsdoc_projection_counterexample :
    (toolToJsDoc s1Tool).take 4 = "\n/**" ∧ (toolToJsDoc s1Tool).take 3 ≠ "/**" := by
  constructor
  · rfl
  · decide

/-- Claim C6: the JSDoc projection's Output section uses the tool's
code-mode-output-schema whenever it is non-null and its output-schema
otherwise — rendering a tool is the same as rendering it with the chosen
schema installed as the plain output schema. -/
theorem jsdoc_schema_preference (t : Tool) :
    toolToJsDoc t =
      toolToJsDoc { t with
        outputSchema := t.codeModeOutputSchema.getD t.outputSchema,
        codeModeOutputSchema := none } := by
  cases h : t.codeModeOutputSchema <;> simp [toolToJsDoc, h]

/-- Claim C8: for every inner tool set, the adapter's `Tools()` returns
exactly one tool, named `run_tools_with_javascript` with category
`code mode`, whose parameters schema is an object requiring only the
`script` string with no additional properties, and whose output schema is
an object requiring `value`, `stdout`, `stderr` with the optional
`tool_calls` trace array. -/
theorem codemode_tool_surface (inner : List Tool) :
    adapterTools inner = [codeModeToolDesc] ∧
    codeModeToolDesc.name = "run_tools_with_javascript" ∧
    codeModeToolDesc.category = "code mode" ∧
    codeModeToolDesc.parameters = scriptParamsSchema ∧
    codeModeToolDesc.outputSchema = scriptResultSchema ∧
    objGet scriptParamsSchema "type" = some (Json.str "object") ∧
    objGet scriptParamsSchema "required" = some (Json.arr [Json.str "script"]) ∧
    objGet scriptParamsSchema "additionalProperties" = some (Json.bool false) ∧
    objGet scriptResultSchema "required" =
      some (Json.arr [Json.str "value", Json.str "stdout", Json.str "stderr"]) ∧
    objGet scriptResultSchema "additionalProperties" = some (Json.bool false) :=
  ⟨rfl, rfl, rfl, rfl, rfl, rfl, rfl, rfl, rfl, rfl⟩

/-- Claim C9: the adapter's `Start` and `Stop` delegate to the inner tool
set, and `Start`/`Stop` idempotence — two `Start`s produce the same
external state as one — carries over to the wrapped tool set. -/
theorem startstop_delegation_idempotent {σ : Type} (inner : ToolSetModel σ) (s : σ) :
    (wrapToolSet inner).start s = inner.start s ∧
    (wrapToolSet inner).stop s = inner.stop s ∧
    (wrapToolSet inner).start ((wrapToolSet inner).start s) = (wrapToolSet inner).start s ∧
    (wrapToolSet inner).stop ((wrapToolSet inner).stop s) = (wrapToolSet inner).stop s :=
  ⟨rfl, rfl, inner.start_idem s, inner.stop_idem s⟩

/-- Claim C5: every bridge invocation appends exactly one trace entry,
recording the tool name and the decoded argument value independently of
the handler's outcome, with `result` filled from the output string on
return and `error` from the handler error; and the S5 script yields
exactly one trace entry with arguments `{value: "test123"}` and result
`result`. -/
theorem codemode_argument_capture :
    (∀ (t : Tool) (args : Json) (trace : List ToolTrace),
      (bridgeCall t args trace).trace = trace ++ [
        match t.handler args with
        | .ok r => ⟨t.name, args, r.output, r.error.getD ""⟩
        | .error e => ⟨t.name, args, "", e⟩]) ∧
    (execScript [s5Tool] s5Script).toolCalls =
      [⟨"tool_with_args", Json.obj [("value", Json.str "test123")], "result", ""⟩] := by
  constructor
  · intro t args trace
    cases hh : t.handler args <;> simp [bridgeCall, hh]
  · rfl

/-- Claim C3: for a tool whose handler returns output `O`, the value the
script observes is `JSON.parse(O)` when the tool declares a
code-mode-output-schema, and the raw string `O` when it does not. -/
theorem codemode_output_roundtrip (t : Tool) (args : Json) (trace : List ToolTrace)
    (O : String) (h : t.handler args = .ok ⟨O, none⟩) :
    (∀ v, t.codeModeOutputSchema.isSome = true → jsonParse O = some v →
      (bridgeCall t args trace).result = .ok v) ∧
    (t.codeModeOutputSchema = none →
      (bridgeCall t args trace).result = .ok (Json.str O)) := by
  constructor
  · intro v hs hp
    simp [bridgeCall, h, hs, hp]
  · intro hs
    simp [bridgeCall, h, hs]

/-- Witness for claim C3: a schema-declaring tool producing `[1,2]` is
observed as the parsed array, and a schema-less tool producing `data` is
observed as the raw string. -/
theorem codemode_output_roundtrip_witness :
    (bridgeCall structuredTool (Json.obj []) []).result =
      .ok (Json.arr [Json.num 1, Json.num 2]) ∧
    (bridgeCall rawTool (Json.obj []) []).result = .ok (Json.str "data") :=
  ⟨(codemode_output_roundtrip structuredTool (Json.obj []) [] "[1,2]" rfl).1
      (Json.arr [Json.num 1, Json.num 2]) rfl rfl,
   (codemode_output_roundtrip rawTool (Json.obj []) [] "data" rfl).2 rfl⟩

/-- Claim C4: a script returning a tool whose handler fails with error
text `e` fails as a script, its value contains `e`, its trace holds one
entry for the tool with empty result and error `e`, and the outer
`run_tools_with_javascript` call still returns success at the transport
layer. -/
theorem codemode_tool_error_attribution (nm : String) (args : Json) (e : String) :
    scriptSucceeds [mkFailingTool nm e] [.retTool nm args] = false ∧
    (∃ pre post,
      (execScript [mkFailingTool nm e] [.retTool nm args]).value = pre ++ e ++ post) ∧
    (execScript [mkFailingTool nm e] [.retTool nm args]).toolCalls = [⟨nm, args, "", e⟩] ∧
    ∃ res, runToolsWithJavascript [mkFailingTool nm e] [.retTool nm args] = .ok res ∧
      res.error = none := by
  refine ⟨?_, ⟨"", "", ?_⟩, ?_, ⟨_, rfl, rfl⟩⟩
  · simp [scriptSucceeds, runStmts, findTool, mkFailingTool, bridgeCall]
  · simp [execScript, runStmts, findTool, mkFailingTool, bridgeCall]
  · simp [execScript, runStmts, findTool, mkFailingTool, bridgeCall]

/-- The tool found by name carries that name. -/
lemma findTool_name {ts : List Tool} {nm : String} {t : Tool} (h : findTool ts nm = some t) :
    t.name = nm := by
  unfold findTool at h
  have h2 := List.find?_some h
  simpa using h2

/-- On a failing run, the final trace extends the starting trace with the
name/argument pairs of exactly the attempted invocations, in order. -/
lemma runStmts_fail_map (ts : List Tool) : ∀ (script : List Stmt) (trace : List ToolTrace)
    (msg : String), (runStmts ts script trace).2 = .error msg →
    ((runStmts ts script trace).1).map (fun tr => (tr.name, tr.arguments)) =
      trace.map (fun tr => (tr.name, tr.arguments)) ++ attemptedCalls ts script := by
  intro script
  induction script with
  | nil => intro trace msg h; simp [runStmts] at h
  | cons s rest ih =>
    intro trace msg h
    cases s with
    | callTool nm args =>
      cases hf : findTool ts nm with
      | none => simp [runStmts, hf, attemptedCalls]
      | some t =>
        have hname := findTool_name hf
        cases hh : t.handler args with
        | error e =>
          simp [runStmts, hf, bridgeCall, hh, attemptedCalls, hname]
        | ok r =>
          simp only [runStmts, hf, bridgeCall, hh] at h ⊢
          rw [ih _ _ h]
          simp [attemptedCalls, hf, hh, hname]
    | retTool nm args =>
      cases hf : findTool ts nm with
      | none => simp [runStmts, hf, attemptedCalls]
      | some t =>
        have hname := findTool_name hf
        cases hh : t.handler args with
        | error e =>
          simp [runStmts, hf, bridgeCall, hh, attemptedCalls, hname]
        | ok r =>
          simp [runStmts, hf, bridgeCall, hh] at h
    | retConst v => simp [runStmts] at h
    | throwJs msg' => simp [runStmts, attemptedCalls]

/-- Claim C1: Code-Mode trace symmetry — when a script runs to completion
successfully its `tool_calls` is empty, and when it fails its
`tool_calls` holds exactly one entry per tool invocation attempted before
the failure, in invocation order. -/
theorem codemode_trace_symmetry (ts : List Tool) (script : List Stmt) :
    (scriptSucceeds ts script = true → (execScript ts script).toolCalls = []) ∧
    (scriptSucceeds ts script = false →
      (execScript ts script).toolCalls.map (fun tr => (tr.name, tr.arguments)) =
        attemptedCalls ts script) := by
  constructor
  · intro h
    unfold execScript
    rcases hr : runStmts ts script [] with ⟨trace, out⟩
    cases out with
    | ok v => simp
    | error msg => simp [scriptSucceeds, hr] at h
  · intro h
    unfold execScript
    rcases hr : runStmts ts script [] with ⟨trace, out⟩
    cases out with
    | ok v => simp [scriptSucceeds, hr] at h
    | error msg =>
      have hmap := runStmts_fail_map ts script [] msg (by rw [hr])
      rw [hr] at hmap
      simpa using hmap

/-- Witness for claim C1: the successful S2 script has an empty trace,
and the failing S3 script's trace matches the attempted invocations. -/
theorem codemode_trace_symmetry_witness :
    (execScript [rawTool] [.retTool "get_data" Json.null]).toolCalls = [] ∧
    (execScript [firstTool, secondTool] s3Script).toolCalls.map
        (fun tr => (tr.name, tr.arguments)) =
      attemptedCalls [firstTool, secondTool] s3Script :=
  ⟨(codemode_trace_symmetry [rawTool] [.retTool "get_data" Json.null]).1 rfl,
   (codemode_trace_symmetry [firstTool, secondTool] s3Script).2 rfl⟩

/-- `find?` after replacing the entry of key `cid` finds the new entry
exactly when the key was present. -/
lemma updateClient_find_self (l : List (String × MClient)) (cid : String) (newV : MClient) :
    (updateClient l cid newV).find? (fun e => e.1 == cid) =
      (l.find? (fun e => e.1 == cid)).map (fun _ => (cid, newV)) := by
  induction l with
  | nil => simp [updateClient]
  | cons kv rest ih =>
    obtain ⟨k, v⟩ := kv
    by_cases hk : k = cid
    · subst hk
      simp [updateClient]
    · have hkb : (k == cid) = false := by simpa using hk
      simp [updateClient, hkb, ih]

/-- `find?` for a key other than the replaced one is unchanged. -/
lemma updateClient_find_other (l : List (String × MClient)) (cid x : String) (newV : MClient)
    (hx : x ≠ cid) :
    (updateClient l cid newV).find? (fun e => e.1 == x) = l.find? (fun e => e.1 == x) := by
  induction l with
  | nil => simp [updateClient]
  | cons kv rest ih =>
    obtain ⟨k, v⟩ := kv
    by_cases hk : k = cid
    · subst hk
      have hkb : (k == x) = false := by
        simp only [beq_eq_false_iff_ne]
        exact fun h => hx h.symm
      simp [updateClient, hkb]
    · have hkb : (k == cid) = false := by simpa using hk
      by_cases hkx : k = x
      · subst hkx
        simp [updateClient, hkb]
      · have hkxb : (k == x) = false := by simpa using hkx
        simp [updateClient, hkb, hkxb, ih]

/-- Two pointwise-equal predicates find the same entry. -/
lemma find?_ext {α : Type} (p q : α → Bool) (h : ∀ a, p a = q a) (l : List α) :
    l.find? p = l.find? q := by
  induction l with
  | nil => rfl
  | cons a l ih => simp [List.find?, h a, ih]

/-- After filtering out key `cid`, a `find?` for `cid` fails. -/
lemma filterKey_find_self (l : List (String × MClient)) (cid : String) :
    (l.filter (fun e => ! (e.1 == cid))).find? (fun e => e.1 == cid) = none := by
  rw [List.find?_filter]
  have hp : ∀ e : String × MClient,
      ((! (e.1 == cid)) && (e.1 == cid)) = false := by
    intro e
    by_cases h : e.1 = cid <;> simp [h]
  rw [find?_ext _ (fun _ => false) (fun a => by simp [hp a]) l]
  simp

/-- After filtering out key `cid`, a `find?` for any other key is
unchanged. -/
lemma filterKey_find_other (l : List (String × MClient)) (cid x : String) (hx : x ≠ cid) :
    (l.filter (fun e => ! (e.1 == cid))).find? (fun e => e.1 == x) =
      l.find? (fun e => e.1 == x) := by
  rw [List.find?_filter]
  apply find?_ext
  intro e
  by_cases h1 : e.1 = x
  · simp [h1, hx]
  · simp [h1]

/-- A successful `createClient` call: the id counter is unchanged, the
new client starts with no sessions, and other clients are untouched. -/
lemma createClient_ok {m m' : Manager} {cid : String} (h : createClient m cid = .ok m') :
    m'.nextId = m.nextId ∧
    lookupClient m' cid = some ⟨[]⟩ ∧
    (∀ x, x ≠ cid → lookupClient m' x = lookupClient m x) := by
  unfold createClient at h
  by_cases hc : (lookupClient m cid).isSome
  · simp [hc] at h
  · have hnone : lookupClient m cid = none := by
      cases hq : lookupClient m cid
      · rfl
      · simp [hq] at hc
    have hfnone : List.find? (fun e => e.1 == cid) m.clients = none := by
      unfold lookupClient at hnone
      exact Option.map_eq_none'.mp hnone
    simp [hc] at h
    subst h
    refine ⟨rfl, ?_, ?_⟩
    · unfold lookupClient
      simp [List.find?_append, hfnone]
    · intro x hx
      unfold lookupClient
      have hcx : (cid == x) = false := by
        simp only [beq_eq_false_iff_ne]
        exact fun hh => hx hh.symm
      simp [List.find?_append, hcx]

/-- A successful `createSession` call: the client existed, the returned
id is the fresh counter value, the counter advances, the session is
appended under that client, and other clients are untouched. -/
lemma createSession_ok {m m' : Manager} {cid spec : String} {sid : Nat}
    (h : createSession m cid spec = .ok (sid, m')) :
    ∃ cl, lookupClient m cid = some cl ∧
      sid = m.nextId ∧ m'.nextId = m.nextId + 1 ∧
      lookupClient m' cid = some ⟨cl.sessions ++ [(m.nextId, ⟨spec, []⟩)]⟩ ∧
      (∀ x, x ≠ cid → lookupClient m' x = lookupClient m x) := by
  unfold createSession at h
  cases hcl : lookupClient m cid with
  | none => simp [hcl] at h
  | some cl =>
    simp [hcl] at h
    by_cases hcap : m.cap ≤ cl.sessions.length
    · simp [hcap] at h
    · simp [hcap] at h
      obtain ⟨hsid, hm'⟩ := h
      subst hm'
      refine ⟨cl, rfl, hsid.symm, rfl, ?_, ?_⟩
      · unfold lookupClient
        have := updateClient_find_self m.clients cid ⟨cl.sessions ++ [(m.nextId, ⟨spec, []⟩)]⟩
        rw [this]
        unfold lookupClient at hcl
        cases hq : List.find? (fun e => e.1 == cid) m.clients with
        | none => rw [hq] at hcl; simp at hcl
        | some e => simp
      · intro x hx
        unfold lookupClient
        rw [updateClient_find_other m.clients cid x _ hx]

/-- A successful `closeSession` call: the client existed, the counter is
unchanged, the session list is filtered under that client, and other
clients are untouched. -/
lemma closeSession_ok {m m' : Manager} {cid : String} {sid : Nat}
    (h : closeSession m cid sid = .ok m') :
    ∃ cl, lookupClient m cid = some cl ∧
      m'.nextId = m.nextId ∧
      lookupClient m' cid = some ⟨cl.sessions.filter (fun e => ! (e.1 == sid))⟩ ∧
      (∀ x, x ≠ cid → lookupClient m' x = lookupClient m x) := by
  unfold closeSession at h
  cases hcl : lookupClient m cid with
  | none => simp [hcl] at h
  | some cl =>
    simp [hcl] at h
    by_cases hfind : (List.find? (fun e => e.1 == sid) cl.sessions).isSome
    · simp [hfind] at h
      subst h
      refine ⟨cl, rfl, rfl, ?_, ?_⟩
      · unfold lookupClient
        rw [updateClient_find_self m.clients cid _]
        unfold lookupClient at hcl
        cases hq : List.find? (fun e => e.1 == cid) m.clients with
        | none => rw [hq] at hcl; simp at hcl
        | some e => simp
      · intro x hx
        unfold lookupClient
        rw [updateClient_find_other m.clients cid x _ hx]
    · simp [hfind] at h

/-- A successful `removeClient` call: the counter is unchanged, the
client is gone, and other clients are untouched. -/
lemma removeClient_ok {m m' : Manager} {cid : String} (h : removeClient m cid = .ok m') :
    m'.nextId = m.nextId ∧
    lookupClient m' cid = none ∧
    (∀ x, x ≠ cid → lookupClient m' x = lookupClient m x) := by
  unfold removeClient at h
  by_cases hc : (lookupClient m cid).isSome
  · simp [hc] at h
    subst h
    refine ⟨rfl, ?_, ?_⟩
    · unfold lookupClient
      rw [filterKey_find_self]
      rfl
    · intro x hx
      unfold lookupClient
      rw [filterKey_find_other m.clients cid x hx]
  · simp [hc] at h

/-- Every reachable manager state keeps all stored session ids below the
counter and the session-id sets of distinct clients disjoint. -/
theorem reachable_invariant {m : Manager} (h : Reachable m) :
    sessionIdsBounded m ∧ clientsIsolated m := by
  induction h with
  | init cap =>
    constructor
    · intro cid cl hcl e he
      simp [lookupClient] at hcl
    · intro a b cla clb hab ha hb ea eb hea heb
      simp [lookupClient] at ha
  | stepCreateClient m m' cid hm hop ih =>
    obtain ⟨hbnd, hiso⟩ := ih
    obtain ⟨hnext, hself, hother⟩ := createClient_ok hop
    have hchar : ∀ x cl', lookupClient m' x = some cl' →
        lookupClient m x = some cl' ∨ cl' = ⟨[]⟩ := by
      intro x cl' hx
      by_cases hxc : x = cid
      · subst hxc
        rw [hself] at hx
        right
        exact (Option.some.injEq _ _ ▸ hx).symm
      · left
        rw [hother x hxc] at hx
        exact hx
    constructor
    · intro c cl hcl e he
      rcases hchar c cl hcl with hold | hempty
      · rw [hnext]
        exact hbnd c cl hold e he
      · subst hempty
        simp at he
    · intro a b cla clb hab ha hb ea eb hea heb
      rcases hchar a cla ha with ha' | ha'
      · rcases hchar b clb hb with hb' | hb'
        · exact hiso a b cla clb hab ha' hb' ea eb hea heb
        · subst hb'; simp at heb
      · subst ha'; simp at hea
  | stepCreateSession m m' cid spec sid hm hop ih =>
    obtain ⟨hbnd, hiso⟩ := ih
    obtain ⟨cl, hcl, hsid, hnext, hself, hother⟩ := createSession_ok hop
    have hchar : ∀ x cl', lookupClient m' x = some cl' →
        (x ≠ cid ∧ lookupClient m x = some cl') ∨
        (x = cid ∧ cl' = ⟨cl.sessions ++ [(m.nextId, ⟨spec, []⟩)]⟩) := by
      intro x cl' hx
      by_cases hxc : x = cid
      · subst hxc
        rw [hself] at hx
        right
        exact ⟨rfl, (Option.some.injEq _ _ ▸ hx).symm⟩
      · left
        rw [hother x hxc] at hx
        exact ⟨hxc, hx⟩
    constructor
    · intro c cl' hcl' e he
      rw [hnext]
      rcases hchar c cl' hcl' with ⟨hne, hold⟩ | ⟨hc, hnew⟩
      · exact Nat.lt_succ_of_lt (hbnd c cl' hold e he)
      · subst hnew
        rcases List.mem_append.mp he with hmem | hmem
        · exact Nat.lt_succ_of_lt (hbnd cid cl hcl e hmem)
        · simp at hmem
          subst hmem
          exact Nat.lt_succ_self _
    · intro a b cla clb hab ha hb ea eb hea heb
      rcases hchar a cla ha with ⟨hane, haold⟩ | ⟨hac, hanew⟩
      · rcases hchar b clb hb with ⟨hbne, hbold⟩ | ⟨hbc, hbnew⟩
        · exact hiso a b cla clb hab haold hbold ea eb hea heb
        · subst hbnew
          rcases List.mem_append.mp heb with hmem | hmem
          · exact hiso a b cla cl hab haold (hbc ▸ hcl) ea eb hea hmem
          · simp at hmem
            intro hcontra
            subst hmem
            have hlt := hbnd a cla haold ea hea
            rw [hcontra] at hlt
            exact Nat.lt_irrefl _ hlt
      · subst hanew
        rcases hchar b clb hb with ⟨hbne, hbold⟩ | ⟨hbc, hbnew⟩
        · rcases List.mem_append.mp hea with hmem | hmem
          · exact hiso a b cl clb hab (hac ▸ hcl) hbold ea eb hmem heb
          · simp at hmem
            intro hcontra
            subst hmem
            have hlt := hbnd b clb hbold eb heb
            rw [← hcontra] at hlt
            exact Nat.lt_irrefl _ hlt
        · exact absurd (hac.trans hbc.symm) hab
  | stepCloseSession m m' cid sid hm hop ih =>
    obtain ⟨hbnd, hiso⟩ := ih
    obtain ⟨cl, hcl, hnext, hself, hother⟩ := closeSession_ok hop
    have hchar : ∀ x cl', lookupClient m' x = some cl' →
        (lookupClient m x = some cl') ∨
        (x = cid ∧ cl' = ⟨cl.sessions.filter (fun e => ! (e.1 == sid))⟩) := by
      intro x cl' hx
      by_cases hxc : x = cid
      · subst hxc
        rw [hself] at hx
        right
        exact ⟨rfl, (Option.some.injEq _ _ ▸ hx).symm⟩
      · left
        rw [hother x hxc] at hx
        exact hx
    have hsub : ∀ e, e ∈ cl.sessions.filter (fun e => ! (e.1 == sid)) → e ∈ cl.sessions := by
      intro e he
      exact (List.mem_filter.mp he).1
    constructor
    · intro c cl' hcl' e he
      rw [hnext]
      rcases hchar c cl' hcl' with hold | ⟨hc, hnew⟩
      · exact hbnd c cl' hold e he
      · subst hnew
        exact hbnd cid cl hcl e (hsub e he)
    · intro a b cla clb hab ha hb ea eb hea heb
      rcases hchar a cla ha with haold | ⟨hac, hanew⟩
      · rcases hchar b clb hb with hbold | ⟨hbc, hbnew⟩
        · exact hiso a b cla clb hab haold hbold ea eb hea heb
        · subst hbnew
          exact hiso a b cla cl hab haold (hbc ▸ hcl) ea eb hea (hsub eb heb)
      · subst hanew
        rcases hchar b clb hb with hbold | ⟨hbc, hbnew⟩
        · exact hiso a b cl clb hab (hac ▸ hcl) hbold ea eb (hsub ea hea) heb
        · exact absurd (hac.trans hbc.symm) hab
  | stepRemoveClient m m' cid hm hop ih =>
    obtain ⟨hbnd, hiso⟩ := ih
    obtain ⟨hnext, hself, hother⟩ := removeClient_ok hop
    have hchar : ∀ x cl', lookupClient m' x = some cl' → lookupClient m x = some cl' := by
      intro x cl' hx
      by_cases hxc : x = cid
      · subst hxc
        rw [hself] at hx
        exact absurd hx (by simp)
      · rw [hother x hxc] at hx
        exact hx
    constructor
    · intro c cl hcl e he
      rw [hnext]
      exact hbnd c cl (hchar c cl hcl) e he
    · intro a b cla clb hab ha hb ea eb hea heb
      exact hiso a b cla clb hab (hchar a cla ha) (hchar b clb hb) ea eb hea heb

/-- Claim C7: client isolation — in every reachable manager state, for
distinct client ids A and B, any session owned by A is invisible to
operations keyed by B: `GetSessionInfo` and `GetSessionHistory` under B
fail with not-found even though the session exists under A. -/
theorem client_isolation {m : Manager} (A B : String) (s : Nat) (lim : Nat)
    (hr : Reachable m) (hne : A ≠ B) (hown : ownsSession m A s) :
    getSessionInfo m B s = .error .notFound ∧
    getSessionHistory m B s lim = .error .notFound := by
  obtain ⟨hbnd, hiso⟩ := reachable_invariant hr
  obtain ⟨clA, hA, hfindA⟩ := hown
  obtain ⟨ea, hea⟩ := Option.isSome_iff_exists.mp hfindA
  have heaMem := List.mem_of_find?_eq_some hea
  have heaKey := List.find?_some hea
  have heaEq : ea.1 = s := by simpa using heaKey
  cases hB : lookupClient m B with
  | none =>
    constructor
    · simp [getSessionInfo, hB]
    · simp [getSessionHistory, getSessionInfo, hB]
  | some clB =>
    have hnone : clB.sessions.find? (fun e => e.1 == s) = none := by
      cases hf : clB.sessions.find? (fun e => e.1 == s) with
      | none => rfl
      | some eb =>
        have hebMem := List.mem_of_find?_eq_some hf
        have hebKey := List.find?_some hf
        have hebEq : eb.1 = s := by simpa using hebKey
        have := hiso A B clA clB hne hA hB ea eb heaMem hebMem
        exact absurd (heaEq.trans hebEq.symm) this
    constructor
    · simp [getSessionInfo, hB, hnone]
    · simp [getSessionHistory, getSessionInfo, hB, hnone]

/-- Witness for claim C7: the S6 state — clients A and B, one session
created under A — is reachable, and B cannot see A's session. -/
theorem client_isolation_witness :
    getSessionInfo s6Manager "B" 0 = .error .notFound ∧
    getSessionHistory s6Manager "B" 0 10 = .error .notFound := by
  have h1 : Reachable (⟨[("A", ⟨[]⟩)], 0, 10⟩ : Manager) :=
    .stepCreateClient ⟨[], 0, 10⟩ ⟨[("A", ⟨[]⟩)], 0, 10⟩ "A" (.init 10) rfl
  have h2 : Reachable (⟨[("A", ⟨[]⟩), ("B", ⟨[]⟩)], 0, 10⟩ : Manager) :=
    .stepCreateClient ⟨[("A", ⟨[]⟩)], 0, 10⟩ ⟨[("A", ⟨[]⟩), ("B", ⟨[]⟩)], 0, 10⟩ "B" h1 rfl
  have h3 : Reachable s6Manager :=
    .stepCreateSession ⟨[("A", ⟨[]⟩), ("B", ⟨[]⟩)], 0, 10⟩ s6Manager "A" "spec" 0 h2 rfl
  exact client_isolation "A" "B" 0 10 h3 (by decide)
    ⟨⟨[(0, ⟨"spec", []⟩)]⟩, rfl, rfl⟩

/-- Claim C10 (amended): `AddPromptFileContent` returns the empty string
for an empty prompt-file name; given successful reads of both legs it
returns the empty string when both contents are empty and otherwise the
project-context header followed by the non-empty contents among home then
working directory joined with a newline; a read failure other than
not-exist on either leg is surfaced as an error. -/
theorem prompt_file_composition (fs : FS) (homeDir workingDir name : String) :
    (name = "" → addPromptFileContent fs homeDir workingDir name = .ok "") ∧
    (∀ hc wc, name ≠ "" →
      promptRead fs (homeDir ++ "/" ++ name) = .ok hc →
      promptRead fs (workingDir ++ "/" ++ name) = .ok wc →
      addPromptFileContent fs homeDir workingDir name =
        (if hc = "" ∧ wc = "" then .ok ""
         else .ok (projectContextHeader ++ String.intercalate "\n"
           ((if hc = "" then [] else [hc]) ++ (if wc = "" then [] else [wc]))))) ∧
    (∀ e, name ≠ "" → promptRead fs (homeDir ++ "/" ++ name) = .error e →
      addPromptFileContent fs homeDir workingDir name =
        .error ("failed to read prompt file from home directory: " ++ e)) ∧
    (∀ hc e, name ≠ "" → promptRead fs (homeDir ++ "/" ++ name) = .ok hc →
      promptRead fs (workingDir ++ "/" ++ name) = .error e →
      addPromptFileContent fs homeDir workingDir name =
        .error ("failed to read prompt file from working directory: " ++ e)) := by
  refine ⟨?_, ?_, ?_, ?_⟩
  · intro h
    simp [addPromptFileContent, h]
  · intro hc wc hn hh hw
    by_cases hce : hc = ""
    · by_cases hwe : wc = ""
      · simp [addPromptFileContent, hn, hh, hw, hce, hwe]
      · simp [addPromptFileContent, hn, hh, hw, hce, hwe]
    · by_cases hwe : wc = ""
      · simp [addPromptFileContent, hn, hh, hw, hce, hwe]
      · simp [addPromptFileContent, hn, hh, hw, hce, hwe]
  · intro e hn hh
    simp [addPromptFileContent, hn, hh]
  · intro hc e hn hh hw
    simp [addPromptFileContent, hn, hh, hw]

/-- Witness for claim C10: with home content `H` and working-directory
content `W`, the result is the header followed by `H`, a newline, `W`. -/
theorem prompt_file_composition_witness :
    addPromptFileContent fsBoth "/h" "/w" "p.md" = .ok (projectContextHeader ++ "H\nW") := by
  have h := (prompt_file_composition fsBoth "/h" "/w" "p.md").2.1 "H" "W" (by decide) rfl rfl
  simpa using h

/-- Claim C10 (counterexample to the claim as stated): when the home
prompt file exists but is empty and the working-directory file holds `W`,
the code returns the header followed by `W` alone, not the header
followed by the two contents joined with a newline. -/
theorem prompt_file_counterexample :
    addPromptFileContent fsHomeEmpty "/h" "/w" "p.md" = .ok (projectContextHeader ++ "W") ∧
    (Except.ok (projectContextHeader ++ "W") : Except String String) ≠
      .ok (projectContextHeader ++ String.intercalate "\n" ["", "W"]) := by
  constructor
  · rfl
  · intro h
    exact absurd (Except.ok.inj h) (by decide)

end Cagent
